import Mathlib

/-!
Shallow embedding of the ColonoMind automated-testing repository.

Source files embedded here:
* `test_dataset_manager.py` — `TestDatasetManager.load_dataset`,
  `get_class_distribution`, `get_batches`;
* `results_analyzer.py` — `ResultsAnalyzer.add_result`,
  `calculate_accuracy_metrics`, `calculate_timing_statistics`;
* `run_tests.py` — the per-item loop of `run_tests` (step 4);
* `colonoscopy_tester.py` — the body-text pattern fallback of
  `extract_mes_classification`, and a spec-modelled `test_single_image`
  (the method is called from `run_tests.py` but absent from the class).

Python floats are modelled as rationals (`ℚ`); the dicts returned by the
analyzer are modelled as records (with an `Option` field for the key group
that is present in only one branch); exceptions are modelled with `Except`.
-/

/-- A labeled test input: `(image_path, ground_truth_class)` as produced by
`TestDatasetManager.load_dataset`. -/
structure TestItem where
  path : String
  label : Nat
deriving DecidableEq, Repr

/-- Embeds `Path(p).name`: the final path component (text after the last slash). -/
def pathName (p : String) : String :=
  String.mk ((p.toList.reverse.takeWhile (fun c => c ≠ '/')).reverse)

/-- Embeds `Path(name).suffix` of pathlib: with `i` the index of the last dot, the
suffix is `name[i:]` when `0 < i < len(name) - 1`, and `""` otherwise. -/
def pathSuffix (name : String) : String :=
  let cs := name.toList
  let afterRev := cs.reverse.takeWhile (fun c => c ≠ '.')
  if afterRev.length = cs.length then ""
  else
    let i := cs.length - afterRev.length - 1
    if 0 < i ∧ i < cs.length - 1 then String.mk (cs.drop i) else ""

/-- One row of `ResultsAnalyzer.results`, the dict appended by `add_result`. -/
structure ResultRecord where
  image_path : String
  image_name : String
  ground_truth : Nat
  predicted : Option Nat
  processing_time : ℚ
  success : Bool
  correct : Bool
  error : String
deriving DecidableEq, Repr

/-- Embeds `ResultsAnalyzer.add_result`: builds the result row; `correct` is
`predicted == ground_truth if predicted is not None else False`. -/
def add_result (image_path : String) (ground_truth : Nat) (predicted : Option Nat)
    (processing_time : ℚ) (success : Bool) (error_msg : String) : ResultRecord :=
  { image_path := image_path
    image_name := pathName image_path
    ground_truth := ground_truth
    predicted := predicted
    processing_time := processing_time
    success := success
    correct := match predicted with
      | some p => p == ground_truth
      | none => false
    error := error_msg }

/-- The filter `[r for r in self.results if r['success'] and r['predicted'] is not None]`
used by `calculate_accuracy_metrics`. -/
def successful_results (rs : List ResultRecord) : List ResultRecord :=
  rs.filter (fun r => r.success && r.predicted.isSome)

/-- The dict returned by `calculate_accuracy_metrics`.  The four
`MES_c_accuracy` keys exist only in the non-empty branch; `per_class_accs = none`
models their absence, and `per_class_accs = some [a0, a1, a2, a3]` models the key
`MES_c_accuracy` holding `a_c`. -/
structure AccuracyMetrics where
  overall_accuracy : ℚ
  total_tested : Nat
  successful_tests : Nat
  failed_tests : Nat
  per_class_accs : Option (List ℚ)
deriving DecidableEq, Repr

/-- Embeds `sklearn.metrics.accuracy_score(y_true, y_pred)` on the paired lists drawn
from `rs`: the fraction of rows whose prediction equals the ground truth. -/
def accuracy_score (rs : List ResultRecord) : ℚ :=
  ((rs.filter (fun r => r.predicted == some r.ground_truth)).length : ℚ) / (rs.length : ℚ)

/-- The per-class branch of `calculate_accuracy_metrics`: for one class,
`correct / len(class_results)` over the successful subset, `0.0` when the
class has no successful rows. -/
def per_class_accuracy (succ : List ResultRecord) (c : Nat) : ℚ :=
  let class_results := succ.filter (fun r => r.ground_truth == c)
  if class_results.length = 0 then 0
  else ((class_results.filter (fun r => r.correct)).length : ℚ) / (class_results.length : ℚ)

/-- Embeds `ResultsAnalyzer.calculate_accuracy_metrics`.  The empty-successful-subset
branch returns early with only the four counting keys (`per_class_accs := none`). -/
def calculate_accuracy_metrics (rs : List ResultRecord) : AccuracyMetrics :=
  let succ := successful_results rs
  if succ.length = 0 then
    { overall_accuracy := 0
      total_tested := rs.length
      successful_tests := 0
      failed_tests := rs.length
      per_class_accs := none }
  else
    { overall_accuracy := accuracy_score succ
      total_tested := rs.length
      successful_tests := succ.length
      failed_tests := rs.length - succ.length
      per_class_accs := some (([0, 1, 2, 3] : List Nat).map (per_class_accuracy succ)) }

/-- Embeds `np.mean`: sum divided by length. -/
def listMean (xs : List ℚ) : ℚ := xs.sum / (xs.length : ℚ)

/-- Embeds `np.median`: middle element of the sorted list, or the average of the two
middle elements for an even length. -/
def listMedian (xs : List ℚ) : ℚ :=
  let s := xs.insertionSort (· ≤ ·)
  if xs.length % 2 = 1 then s.getD (xs.length / 2) 0
  else (s.getD (xs.length / 2 - 1) 0 + s.getD (xs.length / 2) 0) / 2

/-- Embeds `np.min` of a nonempty list (0 for the empty list, which never occurs). -/
def listMin : List ℚ → ℚ
  | [] => 0
  | x :: xs => xs.foldl min x

/-- Embeds `np.max` of a nonempty list (0 for the empty list, which never occurs). -/
def listMax : List ℚ → ℚ
  | [] => 0
  | x :: xs => xs.foldl max x

/-- The population variance: the square of `np.std` (default `ddof=0`).
`np.std` itself is the square root of this value; the square is kept so the
statistic stays inside `ℚ`. -/
def listVariance (xs : List ℚ) : ℚ :=
  listMean (xs.map (fun x => (x - listMean xs) ^ 2))

/-- The dict returned by `calculate_timing_statistics`.  `std_time_sq` holds
the square of the source's `std_time` (see `listVariance`). -/
structure TimingStats where
  mean_time : ℚ
  median_time : ℚ
  min_time : ℚ
  max_time : ℚ
  std_time_sq : ℚ
  total_time : ℚ
deriving DecidableEq, Repr

/-- Embeds `ResultsAnalyzer.calculate_timing_statistics`: the distribution statistics
are over `successful_times = [r['processing_time'] for r in results if r['success']]`;
`total_time` sums `processing_time` over all rows in both branches. -/
def calculate_timing_statistics (rs : List ResultRecord) : TimingStats :=
  let successful_times := (rs.filter (fun r => r.success)).map (fun r => r.processing_time)
  if successful_times.length = 0 then
    { mean_time := 0
      median_time := 0
      min_time := 0
      max_time := 0
      std_time_sq := 0
      total_time := (rs.map (fun r => r.processing_time)).sum }
  else
    { mean_time := listMean successful_times
      median_time := listMedian successful_times
      min_time := listMin successful_times
      max_time := listMax successful_times
      std_time_sq := listVariance successful_times
      total_time := (rs.map (fun r => r.processing_time)).sum }

/-! ### Dataset manager (`test_dataset_manager.py`) -/

/-- Embeds `config.SUPPORTED_EXTENSIONS`, also the default of `TestDatasetManager`. -/
def SUPPORTED_EXTENSIONS : List String :=
  [".jpg", ".jpeg", ".png", ".JPG", ".JPEG", ".PNG"]

/-- One directory entry: its final name and whether `is_file()` holds. -/
structure FsEntry where
  name : String
  isFile : Bool
deriving DecidableEq, Repr

/-- The file-system tree seen by `TestDatasetManager`: whether the base
directory exists, and the existing subdirectories of the base directory with
their entries in iteration order. -/
structure SimFS where
  baseExists : Bool
  subdirs : List (String × List FsEntry)
deriving DecidableEq, Repr

/-- Embeds `(self.base_dir / name).exists()` plus `iterdir()`: the entry list of the
subdirectory called `n`, or `none` when no such subdirectory exists. -/
def dirEntries (fs : SimFS) (n : String) : Option (List FsEntry) :=
  (fs.subdirs.find? (fun p => p.1 == n)).map (fun p => p.2)

/-- The candidate directory names tried for one class:
`[f"MES {c}", f"MES{c}", str(c)]`. -/
def possible_names (c : Nat) : List String :=
  ["MES " ++ toString c, "MES" ++ toString c, toString c]

/-- The inner name loop of `load_dataset`: the first candidate subdirectory
that exists, with its entries; `none` means the class is skipped. -/
def resolve_class_dir (fs : SimFS) (c : Nat) : Option (String × List FsEntry) :=
  (possible_names c).findSome? (fun n =>
    match dirEntries fs n with
    | some es => some (n, es)
    | none => none)

/-- The per-entry test of `load_dataset`:
`img_path.is_file() and img_path.suffix in self.supported_extensions`.
The membership test is plain list membership on exact strings, hence
case-sensitive. -/
def keepEntry (exts : List String) (e : FsEntry) : Bool :=
  e.isFile && exts.contains (pathSuffix e.name)

/-- The items contributed by one class of `load_dataset`: nothing when no
candidate directory exists, otherwise every kept entry paired with the class
label (the path is modelled base-relative as `dir/name`). -/
def class_items (exts : List String) (fs : SimFS) (c : Nat) : List (String × Nat) :=
  match resolve_class_dir fs c with
  | none => []
  | some (dirName, es) =>
      (es.filter (keepEntry exts)).map (fun e => (dirName ++ "/" ++ e.name, c))

/-- Embeds `TestDatasetManager.load_dataset`: raises `ValueError` when the base
directory does not exist, otherwise collects the items of classes 0,1,2,3. -/
def load_dataset (fs : SimFS) (exts : List String) : Except String (List (String × Nat)) :=
  if fs.baseExists = false then
    Except.error "Dataset directory does not exist"
  else
    Except.ok ((([0, 1, 2, 3] : List Nat)).flatMap (class_items exts fs))

/-- Embeds `TestDatasetManager.get_class_distribution`: starts from
`{0: 0, 1: 0, 2: 0, 3: 0}` and increments the counter of each item's label
when that label is one of the keys. -/
def get_class_distribution (images : List (String × Nat)) : List (Nat × Nat) :=
  images.foldl
    (fun d q => d.map (fun kv => if kv.1 = q.2 then (kv.1, kv.2 + 1) else kv))
    [(0, 0), (1, 0), (2, 0), (3, 0)]

/-- The slice loop of `get_batches`: batches `images[i : i + bs]` for
`i = 0, bs, 2*bs, ...` while `i < len(images)`, with `bs = bsPred + 1` (the
step is kept positive structurally so the recursion terminates, mirroring
Python's `range` which rejects a zero step). -/
def get_batches_go (images : List α) (bsPred : Nat) (i : Nat) : List (List α) :=
  if i < images.length then
    ((images.drop i).take (bsPred + 1)) :: get_batches_go images bsPred (i + (bsPred + 1))
  else []
termination_by images.length - i
decreasing_by omega

/-- Embeds `TestDatasetManager.get_batches`: Python's `range(0, len(images), batch_size)`
raises `ValueError` for a zero step; otherwise the dataset is sliced into
consecutive `batch_size`-sized pieces. -/
def get_batches (images : List α) (batch_size : Nat) : Except String (List (List α)) :=
  if batch_size = 0 then Except.error "range() arg 3 must not be zero"
  else Except.ok (get_batches_go images (batch_size - 1) 0)

/-! ### Session driver (`colonoscopy_tester.py`)

`extract_mes_classification` in the source is syntactically broken: line 198's
`except NoSuchElementException:` clause has no indented body (its would-be body
sits at the same indentation), so importing the module raises
`IndentationError`.  The body-text fallback below embeds the pattern list of
lines 201–207, which is textually present and which the repository's design
notes call the intended contract: the patterns are tried in order from most
specific to least specific and the first `re.search` hit wins
(`re.IGNORECASE` is set for this strategy). -/

/-- Python's `\s` whitespace class. -/
def pyWhitespace (c : Char) : Bool :=
  c = ' ' || c = '\t' || c = '\n' || c = '\r' || c = '\x0b' || c = '\x0c'

/-- The two separator shapes occurring in the patterns: `\s*` and `[:\s]*`. -/
inductive SepKind where
  | ws
  | colonWs
deriving DecidableEq, Repr

/-- Whether a character belongs to the separator class. -/
def sepMatches : SepKind → Char → Bool
  | SepKind.ws, c => pyWhitespace c
  | SepKind.colonWs, c => c = ':' || pyWhitespace c

/-- Case-insensitive character comparison (for `re.IGNORECASE`). -/
def charLowerEq (a b : Char) : Bool := a.toLower == b.toLower

/-- Case-insensitive literal match at the start of `s`; returns the rest of
`s` after the literal on success. -/
def litMatchCI : List Char → List Char → Option (List Char)
  | [], s => some s
  | _ :: _, [] => none
  | a :: as, b :: bs => if charLowerEq a b then litMatchCI as bs else none

/-- Match one pattern `lit` + separator-class star + `([0-3])` at the start of
`s`, returning the captured digit.  The separator star can take its maximal
run because a digit is never a separator character. -/
def matchPatAt (lit : List Char) (sep : SepKind) (s : List Char) : Option Nat :=
  match litMatchCI lit s with
  | none => none
  | some rest =>
    match rest.dropWhile (sepMatches sep) with
    | [] => none
    | c :: _ =>
      if c = '0' then some 0
      else if c = '1' then some 1
      else if c = '2' then some 2
      else if c = '3' then some 3
      else none

/-- Embeds `re.search` for one pattern: the match at the leftmost feasible start
position wins. -/
def searchPat (lit : List Char) (sep : SepKind) : List Char → Option Nat
  | [] => matchPatAt lit sep []
  | c :: rest =>
    match matchPatAt lit sep (c :: rest) with
    | some v => some v
    | none => searchPat lit sep rest

/-- The ordered pattern list `mes_patterns` of `extract_mes_classification`,
most specific first. -/
def mes_patterns : List (List Char × SepKind) :=
  [ ("ColonoScan MES Score:".toList, SepKind.ws)
  , ("Prediction: MES".toList, SepKind.ws)
  , ("MES Score:".toList, SepKind.ws)
  , ("MES".toList, SepKind.colonWs)
  , ("Score".toList, SepKind.colonWs) ]

/-- The body-text fallback of `ColonoMindTester.extract_mes_classification`:
the first pattern (in list order) with a `re.search` hit over the page body
text provides the classification. -/
def extract_mes_classification (page_text : String) : Option Nat :=
  mes_patterns.findSome? (fun p => searchPat p.1 p.2 page_text.toList)

/-- The observable behavior of one browser session for one trial: whether the
upload and the result wait succeed, how long each phase takes, and the page
body text the extraction will scan. -/
structure DriverEnv where
  uploadOk : Bool
  uploadSecs : ℚ
  awaitOk : Bool
  awaitSecs : ℚ
  pageText : String
  extractSecs : ℚ

/-- The outcome of one trial as consumed by the orchestrator. -/
structure TrialOutcome where
  item : TestItem
  predicted : Option Nat
  elapsedSeconds : ℚ
  succeeded : Bool

/-- Embeds `ColonoMindTester.upload_image` as a clocked step: returns its success
flag and advances the wall clock by the phase duration. -/
def upload_image (env : DriverEnv) (t : ℚ) : Bool × ℚ :=
  (env.uploadOk, t + env.uploadSecs)

/-- Embeds `ColonoMindTester.wait_for_processing` as a clocked step. -/
def wait_for_processing (env : DriverEnv) (t : ℚ) : Bool × ℚ :=
  (env.awaitOk, t + env.awaitSecs)

/-- The extraction phase as a clocked step: scans the page body text. -/
def extract_step (env : DriverEnv) (t : ℚ) : Option Nat × ℚ :=
  (extract_mes_classification env.pageText, t + env.extractSecs)

/-- Modelled from the spec: `ColonoMindTester.test_single_image` is invoked by
`run_tests.py` (line 162) but no such method exists in
`colonoscopy_tester.py`.  Per the spec, `runSingleTrial` composes
`upload` → `awaitResult` → `extractClassification`, measures elapsed
wall-clock time across the whole sequence (final clock minus start clock),
and packages a `TrialOutcome` with
`succeeded = (upload succeeded AND awaitResult succeeded)`. -/
def test_single_image (env : DriverEnv) (item : TestItem) (t0 : ℚ) : TrialOutcome × ℚ :=
  let u := upload_image env t0
  let w := wait_for_processing env u.2
  let e := extract_step env w.2
  ({ item := item
     predicted := e.1
     elapsedSeconds := e.2 - t0
     succeeded := u.1 && w.1 }, e.2)

/-! ### Orchestrator loop (`run_tests.py`, step 4) -/

/-- What one loop iteration observes from `tester.test_single_image`:
a returned `(predicted, processing_time, success)` triple, a raised
exception with text `msg`, or a `KeyboardInterrupt`. -/
inductive TrialEvent where
  | ok (predicted : Option Nat) (processing_time : ℚ) (success : Bool)
  | exn (msg : String)
  | interrupt
deriving DecidableEq

/-- The loop state of `run_tests`: the analyzer's accumulated rows, the two
counters, and the running counts at which an intermediate detailed-results
flush happened. -/
structure LoopState where
  results : List ResultRecord
  failed_count : Nat
  processed_count : Nat
  flushes : List Nat
deriving DecidableEq

/-- The per-item loop of `run_tests` (lines 157–222): on a returned triple the
result is recorded (with `"Failed to process image"` and a failure count on
`success=False`), `processed_count` is incremented and an intermediate flush
fires when `processed_count % batch_size == 0`; on an exception a failed row
carrying `str(e)` is recorded (no `processed_count` increment) and the loop
continues; on `KeyboardInterrupt` the loop breaks. -/
def runLoopAux (batch_size : Nat) : LoopState → List (TestItem × TrialEvent) → LoopState
  | st, [] => st
  | st, (item, ev) :: rest =>
    match ev with
    | TrialEvent.interrupt => st
    | TrialEvent.exn msg =>
        runLoopAux batch_size
          { st with
            results := st.results ++ [add_result item.path item.label none 0 false msg]
            failed_count := st.failed_count + 1 } rest
    | TrialEvent.ok predicted t success =>
        let st1 :=
          if success then
            { st with
              results := st.results ++ [add_result item.path item.label predicted t true ""] }
          else
            { st with
              results := st.results ++
                [add_result item.path item.label none t false "Failed to process image"]
              failed_count := st.failed_count + 1 }
        let st2 := { st1 with processed_count := st1.processed_count + 1 }
        let st3 :=
          if st2.processed_count % batch_size = 0 then
            { st2 with flushes := st2.flushes ++ [st2.processed_count] }
          else st2
        runLoopAux batch_size st3 rest

/-- The whole testing loop from the initial empty state. -/
def run_tests_loop (batch_size : Nat) (trials : List (TestItem × TrialEvent)) : LoopState :=
  runLoopAux batch_size
    { results := [], failed_count := 0, processed_count := 0, flushes := [] } trials

/-- The row the loop records for one non-interrupt event (used to state what
the loop appends). -/
def recordOfEvent (item : TestItem) : TrialEvent → ResultRecord
  | TrialEvent.ok predicted t true => add_result item.path item.label predicted t true ""
  | TrialEvent.ok _ t false =>
      add_result item.path item.label none t false "Failed to process image"
  | TrialEvent.exn msg => add_result item.path item.label none 0 false msg
  | TrialEvent.interrupt => add_result item.path item.label none 0 false ""

/-- Whether the event is a returned triple (neither an exception nor an
interrupt). -/
def TrialEvent.isOk : TrialEvent → Bool
  | TrialEvent.ok _ _ _ => true
  | _ => false

/-- The running counts `p + 1, ..., p + n` at which an intermediate flush
fires, i.e. those divisible by the batch size. -/
def flushPoints (b n p : Nat) : List Nat :=
  ((List.range n).map (fun j => p + j + 1)).filter (fun m => m % b = 0)

/-! ### Concrete inputs used by witnesses and counterexamples -/

/-- A sample test item. -/
def itemA : TestItem := { path := "imgs/a.jpg", label := 1 }

/-- A sample test item. -/
def itemB : TestItem := { path := "imgs/b.jpg", label := 2 }

/-- A sample test item. -/
def itemC : TestItem := { path := "imgs/c.jpg", label := 3 }

/-- A run in which the second item raises an exception. -/
def exnTrialRun : List (TestItem × TrialEvent) :=
  [ (itemA, TrialEvent.ok (some 1) 1 true)
  , (itemB, TrialEvent.exn "Message: element not interactable")
  , (itemC, TrialEvent.ok (some 3) 1 true) ]

/-- A run of five items, all returning triples (so all five are processed). -/
def fiveOkTrials : List (TestItem × TrialEvent) :=
  [ (itemA, TrialEvent.ok (some 1) 1 true)
  , (itemB, TrialEvent.ok none 1 false)
  , (itemC, TrialEvent.ok (some 3) 1 true)
  , (itemA, TrialEvent.ok (some 0) 1 true)
  , (itemB, TrialEvent.ok (some 2) 1 true) ]

/-- The aggregator example of the repository's testable properties:
outcomes `[(label=1,pred=1,ok), (label=1,pred=2,ok), (label=2,pred=2,ok)]`. -/
def specExampleResults : List ResultRecord :=
  [ add_result "imgs/i1.jpg" 1 (some 1) 1 true ""
  , add_result "imgs/i2.jpg" 1 (some 2) 1 true ""
  , add_result "imgs/i3.jpg" 2 (some 2) 1 true "" ]

/-- A result set whose successful subset is empty. -/
def noSuccessResults : List ResultRecord :=
  [ add_result "imgs/x.jpg" 1 none 1 false "Failed to process image" ]

/-- One successful outcome taking 3 seconds and one failed outcome taking
2 seconds. -/
def timingExampleResults : List ResultRecord :=
  [ add_result "imgs/a.jpg" 1 (some 1) 3 true ""
  , add_result "imgs/b.jpg" 2 none 2 false "Failed to process image" ]

/-- Page text holding a bare `Score: 2` phrase before the labeled score-card
phrase `ColonoScan MES Score: 3`. -/
def priorityPageText : String :=
  "Score: 2 shown. Analysis Results. ColonoScan MES Score: 3"

/-- A dataset tree in which class 2 has no directory under any tried name. -/
def fsMissingClassDir : SimFS :=
  { baseExists := true
    subdirs :=
      [ ("MES 0", [{ name := "a.jpg", isFile := true }])
      , ("1", [{ name := "b.png", isFile := true }])
      , ("MES3", [{ name := "c.JPEG", isFile := true }]) ] }

/-- A dataset tree in which every class resolves to a directory holding one
file with a recognized extension and one extra entry that is not counted:
a wrong-case `.Jpg` extension, an unrecognized `.gif`, a `.txt`, and a
subdirectory. -/
def fsFullTree : SimFS :=
  { baseExists := true
    subdirs :=
      [ ("MES 0", [{ name := "a.jpg", isFile := true }, { name := "b.Jpg", isFile := true }])
      , ("MES 1", [{ name := "c.png", isFile := true }, { name := "d.gif", isFile := true }])
      , ("2", [{ name := "e.JPEG", isFile := true }, { name := "notes.txt", isFile := true }])
      , ("MES3", [{ name := "f.jpeg", isFile := true }, { name := "sub", isFile := false }]) ] }

/-! ## Theorems -/

/-- C1: the single-trial operation composes upload, then the result wait, then
classification extraction; the elapsed wall-clock time (final clock minus
start clock) spans the whole sequence, i.e. equals the sum of the three phase
durations; and the outcome's `succeeded` flag equals
(upload succeeded AND awaitResult succeeded). -/
theorem single_trial_composition (env : DriverEnv) (item : TestItem) (t0 : ℚ) :
    ((test_single_image env item t0).1).succeeded = (env.uploadOk && env.awaitOk)
    ∧ ((test_single_image env item t0).1).elapsedSeconds
        = env.uploadSecs + env.awaitSecs + env.extractSecs
    ∧ ((test_single_image env item t0).1).predicted = extract_mes_classification env.pageText
    ∧ ((test_single_image env item t0).1).item = item := by
  refine ⟨rfl, ?_, rfl, rfl⟩
  show t0 + env.uploadSecs + env.awaitSecs + env.extractSecs - t0
      = env.uploadSecs + env.awaitSecs + env.extractSecs
  ring

/-- C4 counterexample: on a result set with no successful outcome the metrics
dict carries no per-class accuracy entries at all (`per_class_accs = none`), rather
than reporting 0 for each of the four classes as the claim states. -/
theorem accuracy_metrics_empty_keys_absent :
    (calculate_accuracy_metrics noSuccessResults).per_class_accs = none := by
  decide

/-- C4 (amended): when the successful subset is empty, `accuracyMetrics`
returns overall accuracy 0 together with the three counters, omits the
per-class accuracy entries entirely, and performs no division. -/
theorem accuracy_metrics_empty_success (rs : List ResultRecord)
    (h : successful_results rs = []) :
    calculate_accuracy_metrics rs =
      { overall_accuracy := 0
        total_tested := rs.length
        successful_tests := 0
        failed_tests := rs.length
        per_class_accs := none } := by
  simp [calculate_accuracy_metrics, h]

/-- C4 witness: the amended statement at a concrete all-failed result set. -/
theorem accuracy_metrics_empty_success_witness :
    successful_results noSuccessResults = []
    ∧ calculate_accuracy_metrics noSuccessResults =
      { overall_accuracy := 0
        total_tested := noSuccessResults.length
        successful_tests := 0
        failed_tests := noSuccessResults.length
        per_class_accs := none } :=
  ⟨by decide, accuracy_metrics_empty_success noSuccessResults (by decide)⟩

/-- C5: `total_time` sums the elapsed times of all outcomes (failed ones
included) in both branches, while the five distribution statistics are
computed over the elapsed times of the succeeded outcomes only (`std_time_sq`
being the square of the source's `std_time`, see `listVariance`). -/
theorem timing_statistics_subsets (rs : List ResultRecord) :
    (calculate_timing_statistics rs).total_time = (rs.map (fun r => r.processing_time)).sum
    ∧ ((rs.filter (fun r => r.success)).map (fun r => r.processing_time) ≠ [] →
        (calculate_timing_statistics rs).mean_time
            = listMean ((rs.filter (fun r => r.success)).map (fun r => r.processing_time))
        ∧ (calculate_timing_statistics rs).median_time
            = listMedian ((rs.filter (fun r => r.success)).map (fun r => r.processing_time))
        ∧ (calculate_timing_statistics rs).min_time
            = listMin ((rs.filter (fun r => r.success)).map (fun r => r.processing_time))
        ∧ (calculate_timing_statistics rs).max_time
            = listMax ((rs.filter (fun r => r.success)).map (fun r => r.processing_time))
        ∧ (calculate_timing_statistics rs).std_time_sq
            = listVariance ((rs.filter (fun r => r.success)).map (fun r => r.processing_time))) := by
  simp only [calculate_timing_statistics]
  by_cases hlen :
      ((rs.filter (fun r => r.success)).map (fun r => r.processing_time)).length = 0
  · rw [if_pos hlen]
    exact ⟨rfl, fun hne => absurd (List.length_eq_zero.mp hlen) hne⟩
  · rw [if_neg hlen]
    exact ⟨rfl, fun _ => ⟨rfl, rfl, rfl, rfl, rfl⟩⟩

/-- C5 witness: with one successful 3-second outcome and one failed 2-second
outcome, `total_time` is 5 while the distribution statistics come from the
singleton list `[3]`. -/
theorem timing_statistics_subsets_witness :
    (timingExampleResults.filter (fun r => r.success)).map (fun r => r.processing_time) ≠ []
    ∧ (calculate_timing_statistics timingExampleResults).total_time = 5
    ∧ (calculate_timing_statistics timingExampleResults).mean_time = 3
    ∧ (calculate_timing_statistics timingExampleResults).min_time = 3 := by
  have h := timing_statistics_subsets timingExampleResults
  have hne : (timingExampleResults.filter (fun r => r.success)).map
      (fun r => r.processing_time) ≠ [] := by decide
  have hfilter : (timingExampleResults.filter (fun r => r.success)).map
      (fun r => r.processing_time) = [3] := by decide
  refine ⟨hne, ?_, ?_, ?_⟩
  · rw [h.1]
    have : timingExampleResults.map (fun r => r.processing_time) = [3, 2] := by decide
    rw [this]
    norm_num
  · rw [(h.2 hne).1, hfilter]
    norm_num [listMean]
  · rw [(h.2 hne).2.2.1, hfilter]
    norm_num [listMin]

/-- C6: on page text holding a bare `Score: 2` phrase (occurring first) and a
labeled `ColonoScan MES Score: 3` phrase, the ordered pattern fallback
returns 3 — the most specific pattern wins, even though the bare `Score`
pattern alone would have matched 2 earlier in the text. -/
theorem extract_pattern_priority_example :
    extract_mes_classification priorityPageText = some 3
    ∧ searchPat ("Score".toList) SepKind.colonWs priorityPageText.toList = some 2 := by
  exact ⟨by decide, by decide⟩

/-- C3: on a non-empty successful subset, overall accuracy is the count of
successful outcomes whose prediction equals their label divided by the size
of the successful subset, and the per-class entry for class `c` is the count
of correct predictions among successful outcomes with true label `c` divided
by the number of such outcomes (0 when there are none).  The `hwf` hypothesis
is the invariant that `add_result` establishes for the `correct` field. -/
theorem accuracy_metrics_formula (rs : List ResultRecord)
    (hwf : ∀ r ∈ rs, r.correct = (r.predicted == some r.ground_truth))
    (hne : successful_results rs ≠ []) :
    (calculate_accuracy_metrics rs).overall_accuracy
      = (((successful_results rs).filter
            (fun r => r.predicted == some r.ground_truth)).length : ℚ)
        / ((successful_results rs).length : ℚ)
    ∧ (calculate_accuracy_metrics rs).per_class_accs
      = some (([0, 1, 2, 3] : List Nat).map (fun c =>
          if ((successful_results rs).filter (fun r => r.ground_truth == c)).length = 0
          then 0
          else ((((successful_results rs).filter (fun r => r.ground_truth == c)).filter
                    (fun r => r.predicted == some r.ground_truth)).length : ℚ)
            / (((successful_results rs).filter (fun r => r.ground_truth == c)).length : ℚ))) := by
  have hlen : ¬ (successful_results rs).length = 0 :=
    fun h => hne (List.length_eq_zero.mp h)
  simp only [calculate_accuracy_metrics]
  rw [if_neg hlen]
  refine ⟨rfl, ?_⟩
  refine congrArg some (List.map_congr_left ?_)
  intro c _
  simp only [per_class_accuracy]
  have hfe : ((successful_results rs).filter (fun r => r.ground_truth == c)).filter
        (fun r => r.correct)
      = ((successful_results rs).filter (fun r => r.ground_truth == c)).filter
        (fun r => r.predicted == some r.ground_truth) := by
    apply List.filter_congr
    intro r hr
    exact hwf r (List.mem_of_mem_filter (List.mem_of_mem_filter hr))
  rw [hfe]

/-- C3 witness: the spec's aggregator example — overall accuracy is 2/3,
class-1 accuracy 1/2, class-2 accuracy 1, classes 0 and 3 report 0. -/
theorem accuracy_metrics_formula_witness :
    (∀ r ∈ specExampleResults, r.correct = (r.predicted == some r.ground_truth))
    ∧ successful_results specExampleResults ≠ []
    ∧ (calculate_accuracy_metrics specExampleResults).overall_accuracy = 2 / 3
    ∧ (calculate_accuracy_metrics specExampleResults).per_class_accs = some [0, 1 / 2, 1, 0] := by
  have hwf : ∀ r ∈ specExampleResults, r.correct = (r.predicted == some r.ground_truth) := by
    decide
  have hne : successful_results specExampleResults ≠ [] := by decide
  have h := accuracy_metrics_formula specExampleResults hwf hne
  refine ⟨hwf, hne, ?_, ?_⟩
  · rw [h.1]
    have e1 : ((successful_results specExampleResults).filter
        (fun r => r.predicted == some r.ground_truth)).length = 2 := by decide
    have e2 : (successful_results specExampleResults).length = 3 := by decide
    rw [e1, e2]
    norm_num
  · rw [h.2]
    have l0 : ((successful_results specExampleResults).filter
        (fun r => r.ground_truth == 0)).length = 0 := by decide
    have l1 : ((successful_results specExampleResults).filter
        (fun r => r.ground_truth == 1)).length = 2 := by decide
    have c1 : (((successful_results specExampleResults).filter
        (fun r => r.ground_truth == 1)).filter
          (fun r => r.predicted == some r.ground_truth)).length = 1 := by decide
    have l2 : ((successful_results specExampleResults).filter
        (fun r => r.ground_truth == 2)).length = 1 := by decide
    have c2 : (((successful_results specExampleResults).filter
        (fun r => r.ground_truth == 2)).filter
          (fun r => r.predicted == some r.ground_truth)).length = 1 := by decide
    have l3 : ((successful_results specExampleResults).filter
        (fun r => r.ground_truth == 3)).length = 0 := by decide
    simp only [List.map]
    rw [l0, l1, c1, l2, c2, l3]
    norm_num

/-- With no interrupt among the events, the loop appends exactly one recorded
row per item, in order. -/
theorem runLoopAux_results_no_interrupt (b : Nat) (trials : List (TestItem × TrialEvent))
    (st : LoopState) (h : ∀ x ∈ trials, x.2 ≠ TrialEvent.interrupt) :
    (runLoopAux b st trials).results
      = st.results ++ trials.map (fun x => recordOfEvent x.1 x.2) := by
  induction trials generalizing st with
  | nil => simp [runLoopAux]
  | cons x rest ih =>
    obtain ⟨item, ev⟩ := x
    have hev : ev ≠ TrialEvent.interrupt := h (item, ev) (List.mem_cons_self _ _)
    have hrest : ∀ y ∈ rest, y.2 ≠ TrialEvent.interrupt :=
      fun y hy => h y (List.mem_cons_of_mem _ hy)
    cases ev with
    | interrupt => exact absurd rfl hev
    | exn msg =>
        simp only [runLoopAux, List.map_cons]
        rw [ih _ hrest]
        simp [recordOfEvent]
    | ok p t s =>
        cases s
        · simp only [runLoopAux, List.map_cons, Bool.false_eq_true, if_false]
          split
          · rw [ih _ hrest]
            simp [recordOfEvent]
          · rw [ih _ hrest]
            simp [recordOfEvent]
        · simp only [runLoopAux, List.map_cons, if_true]
          split
          · rw [ih _ hrest]
            simp [recordOfEvent]
          · rw [ih _ hrest]
            simp [recordOfEvent]

/-- C2: when the `k`-th item's processing raises an exception (and the run is
not interrupted), the loop still records one outcome per item — so all
subsequent items are processed — and the `k`-th recorded outcome is the
failed row carrying the exception text, which is non-empty whenever the
exception text is. -/
theorem run_loop_exception_isolated (b : Nat) (trials : List (TestItem × TrialEvent))
    (k : Nat) (item : TestItem) (msg : String)
    (hno : ∀ x ∈ trials, x.2 ≠ TrialEvent.interrupt)
    (hk : trials.get? k = some (item, TrialEvent.exn msg))
    (hmsg : msg ≠ "") :
    (run_tests_loop b trials).results.length = trials.length
    ∧ (run_tests_loop b trials).results.get? k
        = some (add_result item.path item.label none 0 false msg)
    ∧ (add_result item.path item.label none 0 false msg).success = false
    ∧ (add_result item.path item.label none 0 false msg).error ≠ "" := by
  have hres := runLoopAux_results_no_interrupt b trials
    { results := [], failed_count := 0, processed_count := 0, flushes := [] } hno
  refine ⟨?_, ?_, rfl, ?_⟩
  · rw [run_tests_loop, hres]
    simp
  · rw [run_tests_loop, hres]
    simp only [List.nil_append, List.get?_map, hk, Option.map_some]
    rfl
  · simpa [add_result] using hmsg

/-- C2 witness: a three-item run whose second item raises; all three items are
recorded and the second row carries the exception text. -/
theorem run_loop_exception_isolated_witness :
    (∀ x ∈ exnTrialRun, x.2 ≠ TrialEvent.interrupt)
    ∧ exnTrialRun.get? 1 = some (itemB, TrialEvent.exn "Message: element not interactable")
    ∧ "Message: element not interactable" ≠ ""
    ∧ ((run_tests_loop 100 exnTrialRun).results.length = exnTrialRun.length
        ∧ (run_tests_loop 100 exnTrialRun).results.get? 1
            = some (add_result itemB.path itemB.label none 0 false
                "Message: element not interactable")
        ∧ (add_result itemB.path itemB.label none 0 false
            "Message: element not interactable").success = false
        ∧ (add_result itemB.path itemB.label none 0 false
            "Message: element not interactable").error ≠ "") :=
  ⟨by decide, by decide, by decide,
    run_loop_exception_isolated 100 exnTrialRun 1 itemB "Message: element not interactable"
      (by decide) (by decide) (by decide)⟩

/-- Peeling one index off the flush-point list. -/
theorem flushPoints_succ (b n p : Nat) :
    flushPoints b (n + 1) p
      = (if (p + 1) % b = 0 then [p + 1] else []) ++ flushPoints b n (p + 1) := by
  unfold flushPoints
  rw [List.range_succ_eq_map]
  simp only [List.map_cons, List.map_map]
  have hfun : ((fun j => p + j + 1) ∘ Nat.succ) = fun j => (p + 1) + j + 1 := by
    funext j
    simp only [Function.comp]
    omega
  rw [hfun]
  have hz : p + 0 + 1 = p + 1 := by omega
  rw [hz, List.filter_cons]
  by_cases hc : (p + 1) % b = 0
  · simp [hc]
  · simp [hc]

/-- For a run of returned triples only, the flushes recorded from any starting
state are the flush points past the starting processed count. -/
theorem runLoopAux_flushes_ok (b : Nat) (trials : List (TestItem × TrialEvent))
    (st : LoopState) (h : ∀ x ∈ trials, (x.2).isOk = true) :
    (runLoopAux b st trials).flushes
      = st.flushes ++ flushPoints b trials.length st.processed_count := by
  induction trials generalizing st with
  | nil => simp [runLoopAux, flushPoints]
  | cons x rest ih =>
    obtain ⟨item, ev⟩ := x
    have hev := h (item, ev) (List.mem_cons_self _ _)
    have hrest : ∀ y ∈ rest, (y.2).isOk = true := fun y hy => h y (List.mem_cons_of_mem _ hy)
    cases ev with
    | exn m => simp [TrialEvent.isOk] at hev
    | interrupt => simp [TrialEvent.isOk] at hev
    | ok p t s =>
        cases s
        · simp only [runLoopAux, List.length_cons, Bool.false_eq_true, if_false]
          rw [flushPoints_succ]
          split
          · rw [ih _ hrest]
            simp
          · rw [ih _ hrest]
            simp
        · simp only [runLoopAux, List.length_cons, if_true]
          rw [flushPoints_succ]
          split
          · rw [ih _ hrest]
            simp
          · rw [ih _ hrest]
            simp

/-- C9: in a run where every item returns a triple (so every item is
processed), an intermediate detailed-results flush happens exactly after
every `batchSize`-th processed item: the recorded flush counts are the
multiples of the batch size among `1, ..., n`.  (Python itself would raise a
`ZeroDivisionError` on a zero batch size, hence the positivity hypothesis.) -/
theorem run_loop_batch_flushes (b : Nat) (trials : List (TestItem × TrialEvent))
    (hb : 0 < b) (hok : ∀ x ∈ trials, (x.2).isOk = true) :
    (run_tests_loop b trials).flushes
      = ((List.range trials.length).map (fun j => j + 1)).filter (fun m => m % b = 0) := by
  have h := runLoopAux_flushes_ok b trials
    { results := [], failed_count := 0, processed_count := 0, flushes := [] } hok
  rw [run_tests_loop, h]
  have hfun : (fun j => 0 + j + 1) = fun (j : Nat) => j + 1 := by
    funext j
    omega
  simp only [flushPoints, List.nil_append, hfun]

/-- C9 witness: with batch size 2 and five processed items the intermediate
flushes happen exactly after the 2nd and the 4th items — not after the
5th. -/
theorem run_loop_batch_flushes_witness :
    0 < 2 ∧ (∀ x ∈ fiveOkTrials, (x.2).isOk = true)
    ∧ (run_tests_loop 2 fiveOkTrials).flushes = [2, 4] := by
  refine ⟨by decide, by decide, ?_⟩
  rw [run_loop_batch_flushes 2 fiveOkTrials (by decide) (by decide)]
  decide

/-- Every item contributed by one class carries that class as its label. -/
theorem class_items_label (exts : List String) (fs : SimFS) (c : Nat) :
    ∀ q ∈ class_items exts fs c, q.2 = c := by
  intro q hq
  unfold class_items at hq
  cases hres : resolve_class_dir fs c with
  | none =>
      rw [hres] at hq
      simp at hq
  | some p =>
      obtain ⟨d, es⟩ := p
      rw [hres] at hq
      simp only [List.mem_map] at hq
      obtain ⟨e, _, rfl⟩ := hq
      rfl

/-- The fold of `get_class_distribution` adds each label's count to the
accumulator entry with that key. -/
theorem dist_foldl (images : List (String × Nat)) (d : List (Nat × Nat)) :
    images.foldl
      (fun d q => d.map (fun kv => if kv.1 = q.2 then (kv.1, kv.2 + 1) else kv)) d
      = d.map (fun kv => (kv.1, kv.2 + (images.filter (fun q => q.2 == kv.1)).length)) := by
  induction images generalizing d with
  | nil => simp
  | cons x rest ih =>
      rw [List.foldl_cons, ih, List.map_map]
      apply List.map_congr_left
      intro kv _
      by_cases hkv : kv.1 = x.2
      · simp only [Function.comp, if_pos hkv, List.filter_cons, hkv, beq_self_eq_true,
          if_true, List.length_cons, Prod.mk.injEq, true_and]
        omega
      · have h2 : ¬ (x.2 == kv.1) = true := by
          simp only [beq_iff_eq]
          exact fun he => hkv he.symm
        simp [Function.comp, if_neg hkv, List.filter_cons, h2]

/-- Rewrites `get_class_distribution` explicitly: one entry per class 0,1,2,3 holding
that label's count. -/
theorem get_class_distribution_eq (images : List (String × Nat)) :
    get_class_distribution images
      = [ (0, (images.filter (fun q => q.2 == 0)).length)
        , (1, (images.filter (fun q => q.2 == 1)).length)
        , (2, (images.filter (fun q => q.2 == 2)).length)
        , (3, (images.filter (fun q => q.2 == 3)).length) ] := by
  unfold get_class_distribution
  rw [dist_foldl]
  simp

/-- C7: dataset loading raises exactly when the root directory is missing;
and for a class in {0,1,2,3} whose directory resolves under none of the tried
naming conventions, loading skips the class without raising: the loaded items
contain nothing with that label and the class distribution reports count 0
for it. -/
theorem load_dataset_missing_class (fs : SimFS) (exts : List String) (c : Nat)
    (hc : c < 4) :
    ((∃ e, load_dataset fs exts = Except.error e) ↔ fs.baseExists = false)
    ∧ (∀ imgs, load_dataset fs exts = Except.ok imgs →
        resolve_class_dir fs c = none →
          imgs.filter (fun q => q.2 == c) = []
          ∧ (get_class_distribution imgs).lookup c = some 0) := by
  constructor
  · unfold load_dataset
    cases hB : fs.baseExists
    · simp
    · simp
  · intro imgs hload hres
    have himgs : imgs = ([0, 1, 2, 3] : List Nat).flatMap (class_items exts fs) := by
      unfold load_dataset at hload
      by_cases hB : fs.baseExists = false
      · rw [if_pos hB] at hload
        cases hload
      · rw [if_neg hB] at hload
        injection hload with h
        exact h.symm
    subst himgs
    have hempty : class_items exts fs c = [] := by
      unfold class_items
      rw [hres]
    have hfilter : (([0, 1, 2, 3] : List Nat).flatMap (class_items exts fs)).filter
        (fun q => q.2 == c) = [] := by
      rw [List.filter_eq_nil]
      intro q hq
      simp only [List.mem_flatMap] at hq
      obtain ⟨c2, _, hqc⟩ := hq
      have hlabel : q.2 = c2 := class_items_label exts fs c2 q hqc
      simp only [hlabel, beq_iff_eq]
      intro heq
      rw [heq] at hqc
      rw [hempty] at hqc
      cases hqc
    refine ⟨hfilter, ?_⟩
    interval_cases c
    · rw [get_class_distribution_eq, hfilter]
      simp [List.lookup]
    · rw [get_class_distribution_eq, hfilter]
      simp [List.lookup]
    · rw [get_class_distribution_eq, hfilter]
      simp [List.lookup]
    · rw [get_class_distribution_eq, hfilter]
      simp [List.lookup]

/-- C7 witness: a tree whose class-2 directory is missing under every tried
name. -/
theorem load_dataset_missing_class_witness :
    (2 : Nat) < 4
    ∧ (((∃ e, load_dataset fsMissingClassDir SUPPORTED_EXTENSIONS = Except.error e)
          ↔ fsMissingClassDir.baseExists = false)
        ∧ (∀ imgs, load_dataset fsMissingClassDir SUPPORTED_EXTENSIONS = Except.ok imgs →
            resolve_class_dir fsMissingClassDir 2 = none →
              imgs.filter (fun q => q.2 == 2) = []
              ∧ (get_class_distribution imgs).lookup 2 = some 0)) :=
  ⟨by decide, load_dataset_missing_class fsMissingClassDir SUPPORTED_EXTENSIONS 2 (by decide)⟩

/-- The item count of one class equals the count of kept entries of its
resolved directory. -/
theorem class_items_length (exts : List String) (fs : SimFS) (c N : Nat)
    (h : (resolve_class_dir fs c).map
        (fun p => (p.2.filter (keepEntry exts)).length) = some N) :
    (class_items exts fs c).length = N := by
  unfold class_items
  cases hres : resolve_class_dir fs c with
  | none =>
      rw [hres] at h
      cases h
  | some p =>
      obtain ⟨d, es⟩ := p
      rw [hres] at h
      simp at h
      simpa using h

/-- Filtering one class's items by a label keeps everything or nothing. -/
theorem class_items_filter_label (exts : List String) (fs : SimFS) (c c2 : Nat) :
    (class_items exts fs c2).filter (fun q => q.2 == c)
      = if c2 = c then class_items exts fs c2 else [] := by
  by_cases h : c2 = c
  · rw [if_pos h]
    apply List.filter_eq_self.mpr
    intro q hq
    simp [class_items_label exts fs c2 q hq, h]
  · rw [if_neg h]
    apply List.filter_eq_nil.mpr
    intro q hq
    have hlabel : q.2 = c2 := class_items_label exts fs c2 q hq
    simp only [hlabel, beq_iff_eq]
    exact h

/-- C8: when each class in {0,1,2,3} resolves to a directory holding exactly
`N` kept entries (regular files whose exact extension string is in the
allowed list — membership is case-sensitive), loading yields exactly `4 * N`
items, `N` of them labeled with each class; the class distribution reports
`N` per class and sums to `4 * N`. -/
theorem load_dataset_full_tree (fs : SimFS) (exts : List String) (N : Nat)
    (hbase : fs.baseExists = true)
    (hres : ∀ c ∈ ([0, 1, 2, 3] : List Nat),
      (resolve_class_dir fs c).map
        (fun p => (p.2.filter (keepEntry exts)).length) = some N) :
    ∃ imgs, load_dataset fs exts = Except.ok imgs
      ∧ imgs.length = 4 * N
      ∧ (∀ c ∈ ([0, 1, 2, 3] : List Nat), (imgs.filter (fun q => q.2 == c)).length = N)
      ∧ (∀ c ∈ ([0, 1, 2, 3] : List Nat), (get_class_distribution imgs).lookup c = some N)
      ∧ ((get_class_distribution imgs).map (fun kv => kv.2)).sum = 4 * N := by
  refine ⟨([0, 1, 2, 3] : List Nat).flatMap (class_items exts fs), ?_, ?_, ?_, ?_, ?_⟩
  · unfold load_dataset
    rw [hbase]
    simp
  · have h0 := class_items_length exts fs 0 N (hres 0 (by decide))
    have h1 := class_items_length exts fs 1 N (hres 1 (by decide))
    have h2 := class_items_length exts fs 2 N (hres 2 (by decide))
    have h3 := class_items_length exts fs 3 N (hres 3 (by decide))
    simp [List.flatMap_cons, List.flatMap_nil, h0, h1, h2, h3]
    omega
  · intro c hc
    fin_cases hc <;>
      simp [List.flatMap_cons, List.flatMap_nil, List.filter_append,
        class_items_filter_label,
        class_items_length exts fs 0 N (hres 0 (by decide)),
        class_items_length exts fs 1 N (hres 1 (by decide)),
        class_items_length exts fs 2 N (hres 2 (by decide)),
        class_items_length exts fs 3 N (hres 3 (by decide))]
  · intro c hc
    rw [get_class_distribution_eq]
    have hfl : ∀ c2 ∈ ([0, 1, 2, 3] : List Nat),
        ((([0, 1, 2, 3] : List Nat).flatMap (class_items exts fs)).filter
          (fun q => q.2 == c2)).length = N := by
      intro c2 hc2
      fin_cases hc2 <;>
        simp [List.flatMap_cons, List.flatMap_nil, List.filter_append,
          class_items_filter_label,
          class_items_length exts fs 0 N (hres 0 (by decide)),
          class_items_length exts fs 1 N (hres 1 (by decide)),
          class_items_length exts fs 2 N (hres 2 (by decide)),
          class_items_length exts fs 3 N (hres 3 (by decide))]
    rw [hfl 0 (by decide), hfl 1 (by decide), hfl 2 (by decide), hfl 3 (by decide)]
    fin_cases hc <;> simp [List.lookup]
  · rw [get_class_distribution_eq]
    have hfl : ∀ c2 ∈ ([0, 1, 2, 3] : List Nat),
        ((([0, 1, 2, 3] : List Nat).flatMap (class_items exts fs)).filter
          (fun q => q.2 == c2)).length = N := by
      intro c2 hc2
      fin_cases hc2 <;>
        simp [List.flatMap_cons, List.flatMap_nil, List.filter_append,
          class_items_filter_label,
          class_items_length exts fs 0 N (hres 0 (by decide)),
          class_items_length exts fs 1 N (hres 1 (by decide)),
          class_items_length exts fs 2 N (hres 2 (by decide)),
          class_items_length exts fs 3 N (hres 3 (by decide))]
    rw [hfl 0 (by decide), hfl 1 (by decide), hfl 2 (by decide), hfl 3 (by decide)]
    simp
    omega

/-- C8 witness: a tree with one recognized image per class next to one
uncounted entry each — a wrong-case `.Jpg`, a `.gif`, a `.txt`, and a
subdirectory — loads exactly four items, one per class. -/
theorem load_dataset_full_tree_witness :
    fsFullTree.baseExists = true
    ∧ (∀ c ∈ ([0, 1, 2, 3] : List Nat),
        (resolve_class_dir fsFullTree c).map
          (fun p => (p.2.filter (keepEntry SUPPORTED_EXTENSIONS)).length) = some 1)
    ∧ (∃ imgs, load_dataset fsFullTree SUPPORTED_EXTENSIONS = Except.ok imgs
        ∧ imgs.length = 4 * 1
        ∧ (∀ c ∈ ([0, 1, 2, 3] : List Nat), (imgs.filter (fun q => q.2 == c)).length = 1)
        ∧ (∀ c ∈ ([0, 1, 2, 3] : List Nat), (get_class_distribution imgs).lookup c = some 1)
        ∧ ((get_class_distribution imgs).map (fun kv => kv.2)).sum = 4 * 1) :=
  ⟨rfl, by decide, load_dataset_full_tree fsFullTree SUPPORTED_EXTENSIONS 1 rfl (by decide)⟩

/-- Concatenating the slices from a start index recovers the list from that
index on. -/
theorem get_batches_go_flatten (images : List α) (bsP : Nat) (i : Nat) :
    (get_batches_go images bsP i).flatten = images.drop i := by
  have H : ∀ fuel i, images.length - i ≤ fuel →
      (get_batches_go images bsP i).flatten = images.drop i := by
    intro fuel
    induction fuel with
    | zero =>
        intro i hi
        rw [get_batches_go, if_neg (by omega)]
        simp [List.drop_eq_nil_of_le (by omega : images.length ≤ i)]
    | succ fuel ih =>
        intro i hi
        rw [get_batches_go]
        by_cases hlt : i < images.length
        · rw [if_pos hlt]
          simp only [List.flatten_cons]
          rw [ih (i + (bsP + 1)) (by omega)]
          have hdd : (images.drop i).drop (bsP + 1) = images.drop (i + (bsP + 1)) := by
            rw [List.drop_drop]
          rw [← hdd, List.take_append_drop]
        · rw [if_neg hlt]
          simp [List.drop_eq_nil_of_le (by omega : images.length ≤ i)]
  exact H (images.length - i) i (le_refl _)

/-- Every produced batch is non-empty. -/
theorem get_batches_go_ne_nil (images : List α) (bsP : Nat) (i : Nat) :
    ∀ b ∈ get_batches_go images bsP i, b ≠ [] := by
  have H : ∀ fuel i, images.length - i ≤ fuel →
      ∀ b ∈ get_batches_go images bsP i, b ≠ [] := by
    intro fuel
    induction fuel with
    | zero =>
        intro i hi b hb
        rw [get_batches_go, if_neg (by omega)] at hb
        cases hb
    | succ fuel ih =>
        intro i hi b hb
        rw [get_batches_go] at hb
        by_cases hlt : i < images.length
        · rw [if_pos hlt] at hb
          rcases List.mem_cons.mp hb with hhead | htail
          · subst hhead
            apply List.ne_nil_of_length_pos
            rw [List.length_take, List.length_drop]
            omega
          · exact ih (i + (bsP + 1)) (by omega) b htail
        · rw [if_neg hlt] at hb
          cases hb
  exact H (images.length - i) i (le_refl _)

/-- Every batch other than the last holds exactly `bsP + 1` elements. -/
theorem get_batches_go_size (images : List α) (bsP : Nat) (i : Nat) :
    ∀ j b, j + 1 < (get_batches_go images bsP i).length →
      (get_batches_go images bsP i).get? j = some b → b.length = bsP + 1 := by
  have H : ∀ fuel i, images.length - i ≤ fuel →
      ∀ j b, j + 1 < (get_batches_go images bsP i).length →
        (get_batches_go images bsP i).get? j = some b → b.length = bsP + 1 := by
    intro fuel
    induction fuel with
    | zero =>
        intro i hi j b hj hget
        rw [get_batches_go, if_neg (by omega)] at hj
        simp at hj
    | succ fuel ih =>
        intro i hi j b hj hget
        rw [get_batches_go] at hj hget
        by_cases hlt : i < images.length
        · rw [if_pos hlt] at hj hget
          cases j with
          | zero =>
              simp only [List.get?_cons_zero, Option.some.injEq] at hget
              have hne : get_batches_go images bsP (i + (bsP + 1)) ≠ [] := by
                intro hnil
                rw [hnil] at hj
                simp at hj
              have hlt2 : i + (bsP + 1) < images.length := by
                by_contra hge
                exact hne (by rw [get_batches_go, if_neg (by omega)])
              rw [← hget, List.length_take, List.length_drop]
              omega
          | succ j =>
              refine ih (i + (bsP + 1)) (by omega) j b ?_ ?_
              · simpa using hj
              · simpa using hget
        · rw [if_neg hlt] at hj
          simp at hj
  exact H (images.length - i) i (le_refl _)

/-- C10: whenever `get_batches` returns batches (any positive batch size),
concatenating them yields exactly the original image list in order, every
batch except possibly the last holds exactly `batch_size` items, and no batch
is empty. -/
theorem get_batches_spec {α : Type} (xs : List α) (bs : Nat) (bss : List (List α))
    (h : get_batches xs bs = Except.ok bss) :
    bss.flatten = xs
    ∧ (∀ j b, j + 1 < bss.length → bss.get? j = some b → b.length = bs)
    ∧ ∀ b ∈ bss, b ≠ [] := by
  unfold get_batches at h
  by_cases hbs : bs = 0
  · rw [if_pos hbs] at h
    cases h
  · rw [if_neg hbs] at h
    injection h with h
    subst h
    refine ⟨?_, ?_, ?_⟩
    · simpa using get_batches_go_flatten xs (bs - 1) 0
    · intro j b hj hget
      have hsz := get_batches_go_size xs (bs - 1) 0 j b hj hget
      omega
    · exact get_batches_go_ne_nil xs (bs - 1) 0

/-- C10 witness: five items with batch size 2 split into `[[1,2],[3,4],[5]]`:
the chunks concatenate back, the non-final chunks have size 2 and no chunk is
empty. -/
theorem get_batches_spec_witness :
    get_batches [1, 2, 3, 4, 5] 2 = Except.ok [[1, 2], [3, 4], [5]]
    ∧ (([[1, 2], [3, 4], [5]] : List (List Nat)).flatten = [1, 2, 3, 4, 5]
        ∧ (∀ j b, j + 1 < ([[1, 2], [3, 4], [5]] : List (List Nat)).length →
            ([[1, 2], [3, 4], [5]] : List (List Nat)).get? j = some b → b.length = 2)
        ∧ ∀ b ∈ ([[1, 2], [3, 4], [5]] : List (List Nat)), b ≠ []) := by
  have h : get_batches [1, 2, 3, 4, 5] 2 = Except.ok [[1, 2], [3, 4], [5]] := by
    simp [get_batches, get_batches_go]
  exact ⟨h, get_batches_spec [1, 2, 3, 4, 5] 2 [[1, 2], [3, 4], [5]] h⟩
